import Mathlib

set_option maxRecDepth 16000

/-!
# GoldsRS BSP loader: a shallow embedding for specification checking

This file embeds the core of the GoldsRS Quake-family BSP decoder
(`src/bsp/mod.rs`, `src/bsp/quake1.rs`, `src/bsp/mapversions.rs`,
`src/sys/bsp.rs`) into Lean 4 and proves properties about it.

Conventions of the embedding:
* machine integers are `Nat`/`Int` with explicit reductions modulo powers
  of two where Rust casts or wraps (`as u8`, `as u16`, `as u32`, `as usize`);
* the raw file is a `List Nat` of byte values (reads reduce modulo 256);
* a Rust panic (out-of-bounds slice indexing, a failed `assert!`, a failed
  `expect`) is an explicit `none` / `panic` constructor of a result type;
* `f32` plane scalars are idealized as exact rationals `ℚ`; the control
  flow that consumes them (sign tests) is translated structurally.
-/

namespace GoldsRS

/-! ## Scalar conversions (Rust casts) -/

/-- Interpret a `u32` bit pattern as an `i32` (two's complement). -/
def toI32 (v : Nat) : Int :=
  if v % 2 ^ 32 < 2 ^ 31 then ((v % 2 ^ 32 : Nat) : Int)
  else ((v % 2 ^ 32 : Nat) : Int) - 2 ^ 32

/-- Rust `x as i8` on an `i32` value: truncate to the low 8 bits, signed. -/
def toI8 (v : Int) : Int :=
  if v % 256 < 128 then v % 256 else v % 256 - 256

/-- Rust `x as u16` on an `i32` value: truncate to the low 16 bits. -/
def toU16 (v : Int) : Nat := (v % 65536).toNat

/-- Rust `x as usize` on an `i32` value on a 64-bit target: sign-extend,
then reinterpret as unsigned. -/
def i32AsUsize (v : Int) : Nat :=
  if 0 ≤ v then v.toNat else (2 ^ 64 + v).toNat

/-- `i32::checked_add`: `some` of the sum when it fits in `i32`. -/
def i32CheckedAdd (a b : Int) : Option Int :=
  if -2 ^ 31 ≤ a + b ∧ a + b < 2 ^ 31 then some (a + b) else none

/-! ## Version policies (`src/bsp/mapversions.rs`)

`MapVersion::accepts_version` for the three variants.  The version field
is a `u32`; we model it as a `Nat` (the embedding only ever feeds values
reduced modulo `2^32`). -/

/-- `Quake1::accepts_version`: `version <= 0x1d`. -/
def quake1AcceptsVersion (version : Nat) : Bool := version ≤ 0x1d

/-- `Goldsrc::accepts_version`: `version == 0x1e`. -/
def goldsrcAcceptsVersion (version : Nat) : Bool := version == 0x1e

/-- `Quake2::accepts_version`: `version <= 0x26 && version > 0x1d`. -/
def quake2AcceptsVersion (version : Nat) : Bool :=
  version ≤ 0x26 && version > 0x1d

/-! ## Plane type decoding (`src/bsp/quake1.rs`, `From<sys::Plane> for Plane`)

The raw `plane_type` field is an `i32`.  The conversion does
`other.plane_type.native() as u8` and then asserts the result is between
`PlaneType::AxialX as u8` (0, trivially true for a `u8`) and
`PlaneType::NonAxialZ as u8` (5), transmuting on success.  A failed
assert aborts; we model the abort as `none`. -/

inductive PlaneType
  | axialX
  | axialY
  | axialZ
  | nonAxialX
  | nonAxialY
  | nonAxialZ
deriving DecidableEq, Repr

/-- The `transmute` of an in-range `u8` into `PlaneType`. -/
def planeTypeOfU8 (pt : Nat) : PlaneType :=
  if pt = 0 then .axialX
  else if pt = 1 then .axialY
  else if pt = 2 then .axialZ
  else if pt = 3 then .nonAxialX
  else if pt = 4 then .nonAxialY
  else .nonAxialZ

/-- Decoding the `plane_type` field of a stored `Plane`, as the code does:
truncate the `i32` to a `u8`, assert `≤ 5`, transmute. -/
def decodePlaneType (raw : Int) : Option PlaneType :=
  let pt : Nat := (raw % 256).toNat
  if pt ≤ 5 then some (planeTypeOfU8 pt) else none

/-! ## Leaf type (`src/bsp/quake1.rs`, `Leaf::leaf_type` / `Leaf::is_invalid`)

`leaf_type` is stored as an `i32`.  `Leaf::leaf_type` truncates it with
`as i8` and asserts the result is between `LeafType::Sky as i8` (-6) and
`LeafType::Ordinary as i8` (-1).  `Leaf::is_invalid` compares the full
`i32` against `-2`. -/

inductive LeafType
  | ordinary
  | water
  | slime
  | lava
  | sky
deriving DecidableEq, Repr

/-- Whether the `assert!` inside `Leaf::leaf_type` passes for a stored
`leaf_type` value: the value truncated to `i8` lies in `[-6, -1]`. -/
def leafTypeAssertOk (v : Int) : Bool :=
  decide (-6 ≤ toI8 v) && decide (toI8 v ≤ -1)

/-- `Leaf::is_invalid`: the full untruncated `i32` equals `-2`. -/
def isInvalidLeaf (v : Int) : Bool := v == -2

/-! ## Byte buffer view and checked construction (`src/bsp/mod.rs`, `Bsp::new`)

`Bsp::new` is implemented for policies whose lump layout is `Quake1Lump`
(the `Quake1` and `Goldsrc` policies), so the header is
`Header<(), Quake1Lump>`: a 4-byte little-endian `u32` version at offset 0
followed by fifteen 8-byte entries (`offset: i32`, `len: i32`), 124 bytes
in total.  The acceptance predicate of the chosen policy is passed in as a
function. -/

/-- Read one byte of the buffer (reads reduce modulo 256; out-of-header
reads never happen after the length check, `getD` mirrors the raw load). -/
def byteAt (bytes : List Nat) (i : Nat) : Nat := bytes.getD i 0 % 256

/-- Little-endian `u32` load at byte offset `i`. -/
def readU32 (bytes : List Nat) (i : Nat) : Nat :=
  byteAt bytes i + 256 * byteAt bytes (i + 1) + 65536 * byteAt bytes (i + 2) +
    16777216 * byteAt bytes (i + 3)

/-- Little-endian `i32` load at byte offset `i`. -/
def readI32 (bytes : List Nat) (i : Nat) : Int := toI32 (readU32 bytes i)

/-- `mem::size_of::<Header<(), Quake1Lump>>()`: 4 + 15 * 8. -/
def headerSize : Nat := 124

/-- The fifteen named lumps of `Quake1Lump`, in the order `Bsp::new`
validates them. -/
def quake1LumpNames : List String :=
  ["entities", "planes", "miptex", "vertices", "vislist", "nodes", "texinfo",
   "faces", "lightmaps", "clipnodes", "leaves", "lfaces", "edges", "ledges",
   "models"]

/-- The `offset` field of the `k`-th lump entry of the header. -/
def entryOffset (bytes : List Nat) (k : Nat) : Int := readI32 bytes (4 + 8 * k)

/-- The `len` field of the `k`-th lump entry of the header. -/
def entryLen (bytes : List Nat) (k : Nat) : Int := readI32 bytes (8 + 8 * k)

/-- The validation `Bsp::new` performs on the `k`-th entry:
`offset.checked_add(len).map(|end| (end as usize) <= bytes.len()).unwrap_or(false)`. -/
def entryOk (bytes : List Nat) (k : Nat) : Bool :=
  match i32CheckedAdd (entryOffset bytes k) (entryLen bytes k) with
  | some e => decide (i32AsUsize e ≤ bytes.length)
  | none => false

inductive BspError
  | versionMismatch (observed : Nat)
  | headerCorrupted
  | entryCorrupted (lump : String)
deriving DecidableEq, Repr

/-- Rust's `Result<Bsp, Error>` for the construction path. -/
inductive BspResult
  | ok (bytes : List Nat)
  | error (e : BspError)
deriving DecidableEq, Repr

/-- `Bsp::new`: checked construction over a byte buffer with a chosen
version policy (its `accepts_version`).  Returns the validated view (the
buffer itself) or a recoverable error. -/
def bspNew (accepts : Nat → Bool) (bytes : List Nat) : BspResult :=
  if bytes.length < headerSize then .error .headerCorrupted
  else if !accepts (readU32 bytes 0) then
    .error (.versionMismatch (readU32 bytes 0))
  else
    match (List.range 15).find? (fun k => !entryOk bytes k) with
    | some k => .error (.entryCorrupted (quake1LumpNames.getD k ""))
    | none => .ok bytes

/-- The per-entry condition of the amended construction claim, in plain
integer arithmetic: `offset + len` fits in `i32` and lies within
`[0, bytes.length]`.  (A negative sum is rejected by the code because the
`as usize` conversion sign-extends it to a huge unsigned value.) -/
def specEntryOk (bytes : List Nat) (k : Nat) : Bool :=
  let s := entryOffset bytes k + entryLen bytes k
  decide (0 ≤ s ∧ s < 2 ^ 31 ∧ s ≤ (bytes.length : Int))

/-- Construction as the amended claim states it, with the per-entry check
written arithmetically (`specEntryOk`) instead of through the `usize`
cast. -/
def specBspNew (accepts : Nat → Bool) (bytes : List Nat) : BspResult :=
  if bytes.length < headerSize then .error .headerCorrupted
  else if !accepts (readU32 bytes 0) then
    .error (.versionMismatch (readU32 bytes 0))
  else
    match (List.range 15).find? (fun k => !specEntryOk bytes k) with
    | some k => .error (.entryCorrupted (quake1LumpNames.getD k ""))
    | none => .ok bytes

/-! ## Decoded record arrays and the tree navigator (`src/bsp/mod.rs`)

For the navigation, traversal and visibility claims only a few fields of
the records matter; the embedding carries exactly those:
* a plane: its normal and distance (`f32`, idealized as `ℚ`) and its raw
  `plane_type` (`i32`) — `Plane::from` validates the latter on every read;
* a branch (`sys::Node`): `plane_id` (`i32`), `front_id`/`back_id`
  (`i16`, already widened to `Int` here as `native() as i32` does);
* a leaf: its raw `leaf_type` (`i32`), which decides `is_invalid`.

Out-of-bounds slice indexing panics in Rust; lookups model the panic as
the outer `none`. -/

structure PlaneRec where
  nx : ℚ
  ny : ℚ
  nz : ℚ
  dist : ℚ
  planeType : Int
deriving DecidableEq, Repr

structure BranchRec where
  planeId : Int
  frontId : Int
  backId : Int
deriving DecidableEq, Repr

structure BspData where
  planes : List PlaneRec
  branches : List BranchRec
  leaves : List Int
deriving DecidableEq, Repr

inductive NodeRef
  | branch (i : Nat)
  | leaf (i : Nat)
deriving DecidableEq, Repr

/-- `Bsp::leaf(index)`: index into the leaves lump (panic = outer `none`
when out of range), then drop the leaf when `is_invalid` (inner `none`). -/
def bspLeaf (leaves : List Int) (i : Nat) : Option (Option Nat) :=
  match leaves[i]? with
  | none => none
  | some t => if isInvalidLeaf t then some none else some (some i)

/-- `Bsp::branch(index)`: index into the nodes lump (panic when out of
range). -/
def bspBranch (branches : List BranchRec) (i : Nat) : Option Nat :=
  if i < branches.length then some i else none

/-- `Bsp::node(id_with_flag)`: the tree navigator.  A negative id selects
the leaf at `(-id - 1) as u16`, a non-negative id the branch at
`id as u16`; an invalid leaf is reported as "no such node" (inner
`none`).  The outer `none` is a panic (out-of-range indexing). -/
def bspNode (b : BspData) (idWithFlag : Int) : Option (Option NodeRef) :=
  let isLeaf := idWithFlag < 0
  let id : Nat := if isLeaf then toU16 (-idWithFlag - 1) else toU16 idWithFlag
  if isLeaf then
    match bspLeaf b.leaves id with
    | none => none
    | some none => some none
    | some (some l) => some (some (.leaf l))
  else
    match bspBranch b.branches id with
    | none => none
    | some i => some (some (.branch i))

/-- `Bsp::plane(plane_id.native() as usize)` followed by
`From<sys::Plane> for Plane`, whose `assert!` validates the plane type
(`none` = panic: out-of-range index or failed assert). -/
def bspPlane (b : BspData) (planeId : Int) : Option PlaneRec :=
  match b.planes[i32AsUsize planeId]? with
  | none => none
  | some pl =>
    match decodePlaneType pl.planeType with
    | none => none
    | some _ => some pl

/-! ## Point classification (`src/bsp/quake1.rs`, `Branch::traverse`)

The query point is an `i16` vector promoted to `f32`; the embedding keeps
it as three `Int` coordinates promoted to `ℚ`.  `traverse` is an unbounded
`loop`; the embedding drives it with explicit fuel, `running` marking a
loop that has not finished within the given fuel. -/

def dotQ (nx ny nz : ℚ) (px py pz : Int) : ℚ :=
  nx * (px : ℚ) + ny * (py : ℚ) + nz * (pz : ℚ)

inductive TravResult
  | found (leafIdx : Nat)
  | noLeaf
  | panicked
  | running
deriving DecidableEq, Repr

inductive TravStep
  | toBranch (bi : Nat)
  | done (r : TravResult)
deriving DecidableEq, Repr

/-- One iteration of the `loop` in `Branch::traverse`, at branch index
`bi`: read the branch's plane, compute
`dot(plane.normal, fpos) - plane.distance`, pick the front child when the
result is `≥ 0` and the back child otherwise, and resolve it through
`Bsp::node`. -/
def traverseStep (b : BspData) (px py pz : Int) (bi : Nat) : TravStep :=
  match b.branches[bi]? with
  | none => .done .panicked
  | some br =>
    match bspPlane b br.planeId with
    | none => .done .panicked
    | some pl =>
      let d := dotQ pl.nx pl.ny pl.nz px py pz - pl.dist
      let child := if 0 ≤ d then br.frontId else br.backId
      match bspNode b child with
      | none => .done .panicked
      | some none => .done .noLeaf
      | some (some (.branch bi')) => .toBranch bi'
      | some (some (.leaf l)) => .done (.found l)

/-- `Branch::traverse` driven by fuel. -/
def traverseFuel (b : BspData) (px py pz : Int) : Nat → Nat → TravResult
  | 0, _ => .running
  | fuel + 1, bi =>
    match traverseStep b px py pz bi with
    | .done r => r
    | .toBranch bi' => traverseFuel b px py pz fuel bi'

/-! ## Visibility decoding (`src/bsp/quake1.rs`, `VisibilityIterator::next`)

The iterator state is the byte cursor `index` (`u32`), the leaf counter
`other_index` (`usize`, starting at 1), and the optional bit cursor `bit`.
The immutable environment is the vislist byte slice, `num_leaves`
(`leaves().len()`), the leaves lump, and the `all` sentinel flag
(`vis_index < 0`).  One call to `next` spins an inner `loop`; `visStep`
is a single iteration of that loop and `visRunWith` drives it with fuel,
collecting the emitted leaf indices. -/

structure VisEnv where
  visList : List Nat
  numLeaves : Nat
  leaves : List Int
  all : Bool
deriving DecidableEq, Repr

structure VisState where
  index : Nat
  otherIndex : Nat
  bit : Option Nat
deriving DecidableEq, Repr

/-- `self.vis_list[i]` (`u8`, so reduced modulo 256; `none` = panic on an
out-of-range index). -/
def visByte (env : VisEnv) (i : Nat) : Option Nat :=
  (env.visList[i]?).map (· % 256)

inductive VisOut
  | stop
  | panicked
  | emit (leafIdx : Nat) (s : VisState)
  | cont (s : VisState)
deriving DecidableEq, Repr

/-- One iteration of the `loop` in `VisibilityIterator::next`, transcribed
branch by branch:
* `all` mode: resolve `other_index` through `Bsp::leaf` (panicking on an
  out-of-range index), advance, and emit when the leaf resolved;
* otherwise stop once `other_index > num_leaves`;
* mid-byte with cursor `b ≥ 8`: clear the cursor and advance `index`;
* mid-byte with `b < 8`: advance the counter, bump the cursor, and test
  the byte against `mask = 2u8 << b` (which truncates to 0 at `b = 7`);
  on a set bit the leaf is `expect`ed to resolve — an invalid or
  out-of-range leaf is a panic, not a skip;
* not mid-byte on a zero byte: the next byte is a skip count `k`; advance
  the counter by `8 * k` and `index` by 2;
* not mid-byte on a nonzero byte: set the cursor to 1. -/
def visStep (env : VisEnv) (s : VisState) : VisOut :=
  if env.all then
    match bspLeaf env.leaves s.otherIndex with
    | none => .panicked
    | some none => .cont { s with otherIndex := s.otherIndex + 1 }
    | some (some l) => .emit l { s with otherIndex := s.otherIndex + 1 }
  else if s.otherIndex > env.numLeaves then .stop
  else
    match s.bit with
    | some b =>
      if b ≥ 8 then .cont { s with bit := none, index := s.index + 1 }
      else
        match visByte env s.index with
        | none => .panicked
        | some byte =>
          let s' : VisState :=
            { s with otherIndex := s.otherIndex + 1, bit := some (b + 1) }
          let mask := (2 <<< b) % 256
          if byte &&& mask ≠ 0 then
            match bspLeaf env.leaves s.otherIndex with
            | some (some l) => .emit l s'
            | _ => .panicked
          else .cont s'
    | none =>
      match visByte env s.index with
      | none => .panicked
      | some byte =>
        if byte = 0 then
          match visByte env (s.index + 1) with
          | none => .panicked
          | some k =>
            .cont { s with otherIndex := s.otherIndex + 8 * k,
                           index := s.index + 2 }
        else .cont { s with bit := some 1 }

inductive VisDone
  | stopped
  | panicAbort
  | fuelOut
deriving DecidableEq, Repr

/-- Drive a visibility step function with fuel, collecting the emitted
leaf indices and how the run ended. -/
def visRunWith (step : VisState → VisOut) : Nat → VisState → List Nat × VisDone
  | 0, _ => ([], .fuelOut)
  | fuel + 1, s =>
    match step s with
    | .stop => ([], .stopped)
    | .panicked => ([], .panicAbort)
    | .cont s' => visRunWith step fuel s'
    | .emit l s' =>
      let r := visRunWith step fuel s'
      (l :: r.1, r.2)

/-- `Leaf::visible_leaves` followed by iterating the iterator:
`num_leaves = leaves().len()`, `all = vis_index < 0`,
`index = vis_index as u32`, `other_index = 1`, no bit cursor. -/
def visibleLeaves (b : BspData) (visList : List Nat) (visIndex : Int)
    (fuel : Nat) : List Nat × VisDone :=
  visRunWith (visStep ⟨visList, b.leaves.length, b.leaves, visIndex < 0⟩)
    fuel ⟨(visIndex % 2 ^ 32).toNat, 1, none⟩

/-- The run-length decoder exactly as the claim states it (one spec-side
machine for comparison): 8 bits per nonzero byte with bit cursor
`b = 0, …, 7`, bit `b` of the byte tests the current leaf counter, a set
bit emits the leaf when it resolves and silently skips it when it does
not, and after 8 bits the byte cursor advances. -/
def visStepClaim (visList : List Nat) (numLeaves : Nat) (leaves : List Int)
    (s : VisState) : VisOut :=
  if s.otherIndex > numLeaves then .stop
  else
    match s.bit with
    | some b =>
      if b ≥ 8 then .cont { s with bit := none, index := s.index + 1 }
      else
        match visList[s.index]? with
        | none => .panicked
        | some w =>
          let s' : VisState :=
            { s with otherIndex := s.otherIndex + 1, bit := some (b + 1) }
          if (w % 256).testBit b then
            match bspLeaf leaves s.otherIndex with
            | some (some l) => .emit l s'
            | _ => .cont s'
          else .cont s'
    | none =>
      match visList[s.index]? with
      | none => .panicked
      | some w =>
        if w % 256 = 0 then
          match visList[s.index + 1]? with
          | none => .panicked
          | some k =>
            .cont { s with otherIndex := s.otherIndex + 8 * (k % 256),
                           index := s.index + 2 }
        else .cont { s with bit := some 0 }

/-- The run-length decoder as the amended claim states it: a nonzero byte
is consumed with bit cursor `b = 1, …, 7` (seven counter advances, then
the cursor passes 8 and the byte cursor moves on).  At cursor `b ≤ 6`
the tested bit is `b + 1` of the byte (bits 0 and 1 are never tested);
at cursor `b = 7` the mask has truncated to zero and nothing can be
emitted.  A set bit whose leaf does not resolve is a panic. -/
def visStepAmended (visList : List Nat) (numLeaves : Nat) (leaves : List Int)
    (s : VisState) : VisOut :=
  if s.otherIndex > numLeaves then .stop
  else
    match s.bit with
    | some b =>
      if b ≥ 8 then .cont { s with bit := none, index := s.index + 1 }
      else
        match visList[s.index]? with
        | none => .panicked
        | some w =>
          let s' : VisState :=
            { s with otherIndex := s.otherIndex + 1, bit := some (b + 1) }
          if b ≤ 6 ∧ (w % 256).testBit (b + 1) then
            match bspLeaf leaves s.otherIndex with
            | some (some l) => .emit l s'
            | _ => .panicked
          else .cont s'
    | none =>
      match visList[s.index]? with
      | none => .panicked
      | some w =>
        if w % 256 = 0 then
          match visList[s.index + 1]? with
          | none => .panicked
          | some k =>
            .cont { s with otherIndex := s.otherIndex + 8 * (k % 256),
                           index := s.index + 2 }
        else .cont { s with bit := some 1 }

/-! ## Concrete fixtures used by counterexamples and witnesses -/

/-- A minimal well-formed Quake1 buffer: version 0 and fifteen zero
entries (every `offset + len = 0` is accepted). -/
def goodBuf : List Nat := List.replicate 124 0

/-- A 124-byte Quake1 buffer (version 29) whose `entities` entry has
`offset = -104` and `len = 4`: the sum `-100` does not overflow `i32` and
does not exceed the buffer length, yet the `as usize` comparison rejects
it. -/
def negSumBuf : List Nat :=
  [29, 0, 0, 0, 152, 255, 255, 255, 4, 0, 0, 0] ++ List.replicate 112 0

/-- A 124-byte Quake1 buffer (version 29) whose `entities` entry has
`offset = -4` and `len = 8`: the sum `4` passes validation although the
byte range starts before the buffer. -/
def negOffBuf : List Nat :=
  [29, 0, 0, 0, 252, 255, 255, 255, 8, 0, 0, 0] ++ List.replicate 112 0

/-- One branch, no leaves: exercises `u16` truncation of branch ids. -/
def oneBranchBsp : BspData := ⟨[], [⟨0, 0, 0⟩], []⟩

/-- Two leaves, the second invalid: exercises leaf resolution. -/
def twoLeafBsp : BspData := ⟨[], [], [-1, -2]⟩

/-- A corrupted file encoding a cycle: the single branch's front and back
ids are both 0, its own index (its plane is the zero plane, type 0). -/
def cyclicBsp : BspData := ⟨[⟨0, 0, 0, 0, 0⟩], [⟨0, 0, 0⟩], []⟩

/-- One branch over plane `x = 0` whose front child is leaf 0 and back
child is leaf 1, both ordinary. -/
def twoSidedBsp : BspData := ⟨[⟨1, 0, 0, 0, 0⟩], [⟨0, -1, -2⟩], [-1, -1]⟩

/-! ## C3: version acceptance -/

/-- C3 counterexample: the claim states that Quake2 accepts `v` iff
`0x1E < v ≤ 0x26` and that `0x1E` is accepted only by Goldsrc; but the
code's Quake2 predicate is `v ≤ 0x26 && v > 0x1D`, so version `0x1E` is
accepted by Quake2 as well as by Goldsrc, refuting the claim at `v = 0x1E`. -/
theorem c3_quake2_accepts_goldsrc_version :
    quake2AcceptsVersion 0x1e = true ∧ goldsrcAcceptsVersion 0x1e = true ∧
      ¬ (0x1e < 0x1e) := by decide

/-- C3 amended: Quake1 accepts `v` iff `v ≤ 0x1D`, Goldsrc iff `v = 0x1E`,
and Quake2 iff `0x1D < v ≤ 0x26` (so `0x1E` is accepted by both Goldsrc
and Quake2); `0x1D` is accepted by Quake1 and rejected by Quake2, `0x26`
only by Quake2, and `0x27` by none of the three. -/
theorem c3_version_acceptance_amended :
    (∀ v : Nat, quake1AcceptsVersion v = true ↔ v ≤ 0x1d) ∧
    (∀ v : Nat, goldsrcAcceptsVersion v = true ↔ v = 0x1e) ∧
    (∀ v : Nat, quake2AcceptsVersion v = true ↔ 0x1d < v ∧ v ≤ 0x26) ∧
    quake1AcceptsVersion 0x1d = true ∧ quake2AcceptsVersion 0x1d = false ∧
    quake1AcceptsVersion 0x1e = false ∧ goldsrcAcceptsVersion 0x1e = true ∧
    quake2AcceptsVersion 0x1e = true ∧
    quake1AcceptsVersion 0x26 = false ∧ goldsrcAcceptsVersion 0x26 = false ∧
    quake2AcceptsVersion 0x26 = true ∧
    quake1AcceptsVersion 0x27 = false ∧ goldsrcAcceptsVersion 0x27 = false ∧
    quake2AcceptsVersion 0x27 = false := by
  refine ⟨fun v => ?_, fun v => ?_, fun v => ?_, by decide, by decide, by decide,
    by decide, by decide, by decide, by decide, by decide, by decide, by decide,
    by decide⟩
  · simp [quake1AcceptsVersion]
  · simp [goldsrcAcceptsVersion]
  · simp [quake2AcceptsVersion]
    omega

/-! ## C9: plane type decoding -/

/-- C9 counterexample: the claim states every raw `plane_type` outside
`0..=5` fails decoding and is never mapped to one of the six variants;
but decoding truncates the `i32` to a `u8` first, so the out-of-range
raw value `256` (low byte 0) decodes to `AxialX` without failing. -/
theorem c9_plane_type_256_accepted :
    decodePlaneType 256 = some PlaneType.axialX ∧
      ¬ ((0 : Int) ≤ 256 ∧ (256 : Int) ≤ 5) := by decide

/-- C9 amended: plane-type validation sees only the low 8 bits of the
stored `i32`: decoding fails (the fatal assert) exactly when the value
reduced modulo 256 exceeds 5; any raw value whose low byte is in `0..=5`
— including out-of-range values such as 256 — is mapped to the variant
of its low byte. -/
theorem c9_plane_type_low_byte_amended :
    ∀ raw : Int, decodePlaneType raw =
      (if raw % 256 ≤ 5 then some (planeTypeOfU8 (raw % 256).toNat) else none) := by
  intro raw
  have h0 : 0 ≤ raw % 256 := Int.emod_nonneg raw (by norm_num)
  unfold decodePlaneType
  by_cases h : (raw % 256).toNat ≤ 5
  · rw [if_pos h, if_pos (by omega)]
  · rw [if_neg h, if_neg (by omega)]

/-! ## C10: leaf type validation -/

/-- C10 confirmed: `Leaf::leaf_type` validates only the low 8 bits of
the stored 32-bit `leaf_type`: the range assert passes exactly when the
value truncated to a signed byte (`as i8`) lies in `[-6, -1]`
(equivalently, when the value modulo 256 lies in `[250, 255]`), so the
stored value 250 (≡ -6 mod 256) is accepted without aborting; and
`Leaf::is_invalid` compares the full untruncated `i32` with `-2`, so 250
is not invalid. -/
theorem c10_leaf_type_truncated_validation :
    (∀ v : Int, leafTypeAssertOk v = true ↔ (-6 ≤ toI8 v ∧ toI8 v ≤ -1)) ∧
    (∀ v : Int, leafTypeAssertOk v = true ↔ (250 ≤ v % 256 ∧ v % 256 ≤ 255)) ∧
    leafTypeAssertOk 250 = true ∧ isInvalidLeaf 250 = false ∧
    (∀ v : Int, isInvalidLeaf v = true ↔ v = -2) := by
  refine ⟨fun v => ?_, fun v => ?_, by decide, by decide, fun v => ?_⟩
  · simp [leafTypeAssertOk]
  · have h0 : 0 ≤ v % 256 := Int.emod_nonneg v (by norm_num)
    have h1 : v % 256 < 256 := Int.emod_lt_of_pos v (by norm_num)
    simp only [leafTypeAssertOk, toI8, Bool.and_eq_true, decide_eq_true_eq]
    by_cases h : v % 256 < 128
    · rw [if_pos h]
      omega
    · rw [if_neg h]
      omega
  · simp [isInvalidLeaf]

/-! ## C2 and C7: point classification -/

lemma traverseFuel_succ (b : BspData) (px py pz : Int) (fuel bi : Nat) :
    traverseFuel b px py pz (fuel + 1) bi =
      match traverseStep b px py pz bi with
      | .done r => r
      | .toBranch bi' => traverseFuel b px py pz fuel bi' := rfl

lemma cyclicBsp_step : traverseStep cyclicBsp 0 0 0 0 = .toBranch 0 := by
  have hd : (0 : ℚ) ≤ dotQ 0 0 0 0 0 0 - 0 := by norm_num [dotQ]
  have hnode : bspNode cyclicBsp 0 = some (some (.branch 0)) := rfl
  unfold traverseStep
  rw [show cyclicBsp.branches[0]? = some ⟨0, 0, 0⟩ from rfl]
  simp only [show bspPlane cyclicBsp 0 = some ⟨0, 0, 0, 0, 0⟩ from rfl]
  rw [if_pos hd, hnode]

/-- C2 counterexample: the claim states classification terminates within
`branch_count` steps on any input, cyclic ids included, failing with a
distinct error when the bound is exceeded.  `cyclicBsp` has one branch
whose front and back children are itself; after `branch_count + 1` loop
iterations the traversal is still running (and the code has no error it
could report — `Branch::traverse` is an unbounded `loop`, and the error
type has no "bound exceeded" variant). -/
theorem c2_cycle_exceeds_branch_count :
    cyclicBsp.branches.length = 1 ∧
      traverseFuel cyclicBsp 0 0 0 (cyclicBsp.branches.length + 1) 0 =
        .running := by
  refine ⟨rfl, ?_⟩
  show traverseFuel cyclicBsp 0 0 0 (1 + 1) 0 = .running
  rw [traverseFuel_succ, cyclicBsp_step]
  show traverseFuel cyclicBsp 0 0 0 (0 + 1) 0 = .running
  rw [traverseFuel_succ, cyclicBsp_step]
  rfl

/-- C2 amended: point classification does not bound its descent.  On a
corrupted file encoding a cycle (a branch that is its own front and back
child) the traversal never terminates, however many steps it is given,
and no error is ever produced. -/
theorem c2_cycle_never_terminates :
    ∀ fuel : Nat, traverseFuel cyclicBsp 0 0 0 fuel 0 = .running := by
  intro fuel
  induction fuel with
  | zero => rfl
  | succ n ih =>
    rw [traverseFuel_succ, cyclicBsp_step]
    exact ih

/-- C7 confirmed: at a branch the traversal computes
`signed_distance = dot(plane.normal, point) - plane.distance`; when it is
`≥ 0` it follows the front child and otherwise the back child, resolving
the child through the Tree Navigator (`Bsp::node`): a branch continues
the loop, a leaf terminates the traversal with that leaf, and "no such
node" terminates it with no containing leaf. -/
theorem c7_traversal_step_characterization (b : BspData) (px py pz : Int)
    (bi fuel : Nat) (br : BranchRec) (pl : PlaneRec)
    (hbr : b.branches[bi]? = some br) (hpl : bspPlane b br.planeId = some pl) :
    (0 ≤ dotQ pl.nx pl.ny pl.nz px py pz - pl.dist →
      (bspNode b br.frontId = some none →
        traverseFuel b px py pz (fuel + 1) bi = .noLeaf) ∧
      (∀ l, bspNode b br.frontId = some (some (.leaf l)) →
        traverseFuel b px py pz (fuel + 1) bi = .found l) ∧
      (∀ bi', bspNode b br.frontId = some (some (.branch bi')) →
        traverseFuel b px py pz (fuel + 1) bi =
          traverseFuel b px py pz fuel bi')) ∧
    (dotQ pl.nx pl.ny pl.nz px py pz - pl.dist < 0 →
      (bspNode b br.backId = some none →
        traverseFuel b px py pz (fuel + 1) bi = .noLeaf) ∧
      (∀ l, bspNode b br.backId = some (some (.leaf l)) →
        traverseFuel b px py pz (fuel + 1) bi = .found l) ∧
      (∀ bi', bspNode b br.backId = some (some (.branch bi')) →
        traverseFuel b px py pz (fuel + 1) bi =
          traverseFuel b px py pz fuel bi')) := by
  constructor
  · intro hd
    refine ⟨fun h => ?_, fun l h => ?_, fun bi' h => ?_⟩ <;>
      · rw [traverseFuel_succ]
        unfold traverseStep
        rw [hbr]
        simp only [hpl, if_pos hd, h]
  · intro hd
    have hd' : ¬ (0 ≤ dotQ pl.nx pl.ny pl.nz px py pz - pl.dist) :=
      not_le.mpr hd
    refine ⟨fun h => ?_, fun l h => ?_, fun bi' h => ?_⟩ <;>
      · rw [traverseFuel_succ]
        unfold traverseStep
        rw [hbr]
        simp only [hpl, if_neg hd', h]

/-- Witness for C7: on `twoSidedBsp` with query point `(5, 0, 0)` the
signed distance at the root is `5 ≥ 0`, the front child `-1` resolves to
leaf 0, and the traversal terminates with it. -/
theorem c7_traversal_step_characterization_witness :
    traverseFuel twoSidedBsp 5 0 0 1 0 = .found 0 :=
  ((c7_traversal_step_characterization twoSidedBsp 5 0 0 0 0 ⟨0, -1, -2⟩
    ⟨1, 0, 0, 0, 0⟩ rfl rfl).1 (by norm_num [dotQ])).2.1 0 rfl

/-! ## C4: tree navigator id resolution -/

lemma bspLeaf_surfaced (lv : List Int) (j l : Nat)
    (h : bspLeaf lv j = some (some l)) :
    l < lv.length ∧ lv.getD l 0 ≠ -2 := by
  unfold bspLeaf at h
  rcases hg : lv[j]? with _ | t <;> rw [hg] at h
  · simp at h
  · by_cases hinv : isInvalidLeaf t = true
    · simp [hinv] at h
    · simp [hinv] at h
      subst h
      have hlt : j < lv.length := by
        by_contra hge
        rw [List.getElem?_eq_none (by omega)] at hg
        exact Option.noConfusion hg
      refine ⟨hlt, ?_⟩
      have hgd : lv.getD j 0 = t := by
        rw [List.getD_eq_getElem?_getD, hg]
        rfl
      rw [hgd]
      simpa [isInvalidLeaf] using hinv

/-- C4 counterexample: the claim states every `id ≥ 0` resolves to the
branch at index `id`; but `Bsp::node` casts the index through `u16`, so
on a map with a single branch the id `65536` resolves to the branch at
index 0 instead of failing for the nonexistent index 65536. -/
theorem c4_node_id_truncated_mod_u16 :
    bspNode oneBranchBsp 65536 = some (some (.branch 0)) ∧
      oneBranchBsp.branches.length = 1 := by decide

/-- C4 amended: for every `i32` id, the navigator resolves `id ≥ 0` to
the branch at index `id mod 2^16` and `id < 0` to the leaf at index
`(-id - 1) mod 2^16` (the canonical encoding, truncated through the
`u16` cast; for ids in the `i16` range of stored child ids the reduction
is the identity), and a resolved leaf whose `leaf_type` is the Invalid
sentinel `-2` is answered with "no such node" (`some none`), so an
invalid leaf is never surfaced: any surfaced leaf index is in range with
`leaf_type ≠ -2`. -/
theorem c4_node_resolution_amended (b : BspData) (id : Int)
    (h1 : -2 ^ 31 ≤ id) (h2 : id < 2 ^ 31) :
    (0 ≤ id →
      bspNode b id =
        match bspBranch b.branches (id % 65536).toNat with
        | none => none
        | some i => some (some (.branch i))) ∧
    (id < 0 →
      bspNode b id =
        match bspLeaf b.leaves ((-id - 1) % 65536).toNat with
        | none => none
        | some none => some none
        | some (some l) => some (some (.leaf l))) ∧
    (∀ i, bspNode b id = some (some (.leaf i)) →
      i < b.leaves.length ∧ b.leaves.getD i 0 ≠ -2) := by
  refine ⟨fun hpos => ?_, fun hneg => ?_, fun i hi => ?_⟩
  · have hnl : ¬ id < 0 := not_lt.mpr hpos
    unfold bspNode toU16
    simp only [if_neg hnl]
  · unfold bspNode toU16
    simp only [if_pos hneg]
  · unfold bspNode toU16 at hi
    by_cases hneg : id < 0
    · simp only [if_pos hneg] at hi
      rcases hl : bspLeaf b.leaves ((-id - 1) % 65536).toNat with _ | _ | l <;>
        rw [hl] at hi <;> simp at hi
      obtain ⟨hlt, hne⟩ := bspLeaf_surfaced b.leaves _ l hl
      exact hi ▸ ⟨hlt, hne⟩
    · simp only [if_neg hneg] at hi
      rcases hb : bspBranch b.branches (id % 65536).toNat with _ | j <;>
        rw [hb] at hi <;> simp at hi

/-- Witness for C4: on `twoLeafBsp` (leaf types `[-1, -2]`), id `-1`
resolves to leaf 0 and id `-2` (leaf index 1, the Invalid sentinel) to
"no such node". -/
theorem c4_node_resolution_amended_witness :
    bspNode twoLeafBsp (-1) = some (some (.leaf 0)) ∧
      bspNode twoLeafBsp (-2) = some none :=
  ⟨((c4_node_resolution_amended twoLeafBsp (-1) (by norm_num)
      (by norm_num)).2.1 (by norm_num)).trans (by decide),
    ((c4_node_resolution_amended twoLeafBsp (-2) (by norm_num)
      (by norm_num)).2.1 (by norm_num)).trans (by decide)⟩

/-! ## C5 and C6: checked construction -/

lemma entryOk_eq_specEntryOk (bytes : List Nat) (k : Nat)
    (hlen : bytes.length < 2 ^ 63) : entryOk bytes k = specEntryOk bytes k := by
  unfold entryOk specEntryOk i32CheckedAdd i32AsUsize
  by_cases h : -2 ^ 31 ≤ entryOffset bytes k + entryLen bytes k ∧
      entryOffset bytes k + entryLen bytes k < 2 ^ 31
  · rw [if_pos h]
    show decide ((if 0 ≤ entryOffset bytes k + entryLen bytes k
        then (entryOffset bytes k + entryLen bytes k).toNat
        else (2 ^ 64 + (entryOffset bytes k + entryLen bytes k)).toNat) ≤
          bytes.length) =
      decide (0 ≤ entryOffset bytes k + entryLen bytes k ∧
        entryOffset bytes k + entryLen bytes k < 2 ^ 31 ∧
        entryOffset bytes k + entryLen bytes k ≤ (bytes.length : Int))
    by_cases h0 : 0 ≤ entryOffset bytes k + entryLen bytes k
    · rw [if_pos h0]
      exact decide_eq_decide.mpr (by omega)
    · rw [if_neg h0]
      exact decide_eq_decide.mpr (by omega)
  · rw [if_neg h]
    show false =
      decide (0 ≤ entryOffset bytes k + entryLen bytes k ∧
        entryOffset bytes k + entryLen bytes k < 2 ^ 31 ∧
        entryOffset bytes k + entryLen bytes k ≤ (bytes.length : Int))
    symm
    rw [decide_eq_false_iff_not]
    omega

/-- C5 counterexample: the claim's error condition for `EntryCorrupted`
is "`offset + length` overflows or exceeds the buffer length", with a
`View` returned otherwise.  `negSumBuf` is long enough for the header,
its version is accepted by the Quake1 policy, and every lump entry's
`offset + length` fits in `i32` without exceeding the buffer length —
yet construction rejects it (`entities` has `offset + length = -100`,
and the `end as usize` comparison sign-extends the negative sum into a
huge value). -/
theorem c5_negative_sum_entry_rejected :
    headerSize ≤ negSumBuf.length ∧
    quake1AcceptsVersion (readU32 negSumBuf 0) = true ∧
    (∀ k < 15, -2 ^ 31 ≤ entryOffset negSumBuf k + entryLen negSumBuf k ∧
      entryOffset negSumBuf k + entryLen negSumBuf k < 2 ^ 31 ∧
      entryOffset negSumBuf k + entryLen negSumBuf k ≤
        (negSumBuf.length : Int)) ∧
    bspNew quake1AcceptsVersion negSumBuf =
      .error (.entryCorrupted "entities") := by decide

/-- C5 amended: for every buffer (of `usize` length) and chosen policy,
construction is total (never panics) and returns `HeaderCorrupted` when
the buffer is shorter than the 124-byte header, `VersionMismatch` with
the observed version when the policy rejects it, and `EntryCorrupted`
naming the first lump (in table order) whose `offset + length` overflows
`i32`, is negative, or exceeds the buffer length; otherwise the
immutable view.  Formally `bspNew` coincides with the machine
`specBspNew` whose per-entry check is that arithmetic condition. -/
theorem c5_construction_characterization (accepts : Nat → Bool)
    (bytes : List Nat) (hlen : bytes.length < 2 ^ 63) :
    bspNew accepts bytes = specBspNew accepts bytes := by
  unfold bspNew specBspNew
  have hfun : (fun k => !entryOk bytes k) = (fun k => !specEntryOk bytes k) := by
    funext k
    rw [entryOk_eq_specEntryOk bytes k hlen]
  rw [hfun]

/-- Witness for C5: the characterization applied to the minimal valid
buffer. -/
theorem c5_construction_characterization_witness :
    goodBuf.length < 2 ^ 63 ∧
      bspNew quake1AcceptsVersion goodBuf =
        specBspNew quake1AcceptsVersion goodBuf :=
  ⟨by decide,
    c5_construction_characterization quake1AcceptsVersion goodBuf (by decide)⟩

/-- C6 counterexample: the claim states that after successful
construction every lump's byte range `[offset, offset + length)` lies
within `[0, buffer length)`.  `negOffBuf` constructs successfully, yet
its `entities` entry has `offset = -4` (with `length = 8`): only the
range's end is validated, so a range that starts before the buffer is
accepted. -/
theorem c6_negative_offset_accepted :
    bspNew quake1AcceptsVersion negOffBuf = .ok negOffBuf ∧
    entryOffset negOffBuf 0 = -4 ∧ entryLen negOffBuf 0 = 8 ∧
    ¬ (0 ≤ entryOffset negOffBuf 0) := by decide

/-- C6 amended: after every successful checked construction, for each of
the fifteen lump entries the sum `offset + length` (computed in `i32`
without overflow) lies in `[0, buffer length]` — the end of a lump's
byte range never escapes the buffer, though its start may still be
negative. -/
theorem c6_lump_end_within_buffer (accepts : Nat → Bool)
    (bytes view : List Nat) (hlen : bytes.length < 2 ^ 63)
    (hok : bspNew accepts bytes = .ok view) :
    ∀ k < 15, 0 ≤ entryOffset bytes k + entryLen bytes k ∧
      entryOffset bytes k + entryLen bytes k ≤ (bytes.length : Int) := by
  intro k hk
  unfold bspNew at hok
  by_cases hh : bytes.length < headerSize
  · rw [if_pos hh] at hok
    exact absurd hok (by simp)
  · rw [if_neg hh] at hok
    by_cases hv : !accepts (readU32 bytes 0)
    · rw [if_pos hv] at hok
      exact absurd hok (by simp)
    · rw [if_neg hv] at hok
      rcases hf : (List.range 15).find? (fun j => !entryOk bytes j) with _ | j
      · have hall := List.find?_eq_none.mp hf k (List.mem_range.mpr hk)
        have hko : entryOk bytes k = true := by
          by_contra hcon
          exact hall (by simp [Bool.not_eq_true] at hcon ⊢; exact hcon)
        rw [entryOk_eq_specEntryOk bytes k hlen] at hko
        have := of_decide_eq_true hko
        exact ⟨this.1, this.2.2⟩
      · rw [hf] at hok
        exact absurd hok (by simp)

/-- Witness for C6: the invariant instantiated on the minimal valid
buffer at the `entities` entry. -/
theorem c6_lump_end_within_buffer_witness :
    0 ≤ entryOffset goodBuf 0 + entryLen goodBuf 0 ∧
      entryOffset goodBuf 0 + entryLen goodBuf 0 ≤ (goodBuf.length : Int) :=
  c6_lump_end_within_buffer quake1AcceptsVersion goodBuf goodBuf (by decide)
    (by decide) 0 (by decide)

/-! ## C1: run-length visibility decoding -/

lemma visMask_testBit : ∀ v < 256, ∀ b < 8,
    ((v &&& ((2 <<< b) % 256) ≠ 0) ↔ (b ≤ 6 ∧ v.testBit (b + 1))) := by decide

/-- C1 counterexample: on the vislist `[0xFF]` with 7 leaves (all valid),
the claim's 8-bit state machine emits leaves 1–7, but the decoder emits
only 1–6: a nonzero byte is consumed in seven counter steps with masks
`2u8 << b` for `b = 1..7` (the seventh mask truncating to zero), not
eight bit tests. -/
theorem c1_seven_bits_per_byte :
    visRunWith (visStep ⟨[255], 7, List.replicate 8 (-1), false⟩) 32
        ⟨0, 1, none⟩ = ([1, 2, 3, 4, 5, 6], .stopped) ∧
    visRunWith (visStepClaim [255] 7 (List.replicate 8 (-1))) 32
        ⟨0, 1, none⟩ = ([1, 2, 3, 4, 5, 6, 7], .stopped) ∧
    ([1, 2, 3, 4, 5, 6] : List Nat) ≠ [1, 2, 3, 4, 5, 6, 7] := by decide

/-- C1 amended: for a leaf with non-negative `vis_index`, one loop
iteration of the decoder behaves as this byte-stream state machine:
decoding stops once the leaf counter exceeds the leaf count; when not
mid-byte, a zero byte at `byte_index` is followed by a skip count `k`
(counter advances by `8 * k`, `byte_index` by 2, nothing emitted) and a
nonzero byte starts a bit cursor at 1; mid-byte with cursor `b < 8` the
counter advances by 1 and the cursor by 1 while the byte is tested
against mask `2u8 << b` — bit `b + 1` for `b ≤ 6` and the always-clear
zero mask at `b = 7`, so only seven counter steps consume a byte and its
bits 0 and 1 are never tested; a set mask bit emits the leaf if it
resolves and panics (rather than skips) if it is invalid or out of
range; once the cursor passes 8 the byte is done (`byte_index`
advances by 1, cursor clears).  Formally: `visStep` in run-length mode
coincides with the machine `visStepAmended`. -/
theorem c1_vis_step_amended (vl : List Nat) (nl : Nat) (lv : List Int)
    (s : VisState) :
    visStep ⟨vl, nl, lv, false⟩ s = visStepAmended vl nl lv s := by
  unfold visStep visStepAmended visByte
  simp only [Bool.false_eq_true, if_false]
  by_cases hstop : s.otherIndex > nl
  · rw [if_pos hstop, if_pos hstop]
  · rw [if_neg hstop, if_neg hstop]
    cases hbit : s.bit with
    | none =>
      cases hw : vl[s.index]? with
      | none => simp [hw]
      | some w =>
        simp only [hw, Option.map_some']
        by_cases h0 : w % 256 = 0
        · simp only [if_pos h0]
          cases hw2 : vl[s.index + 1]? with
          | none => simp [hw2]
          | some k => simp [hw2]
        · simp only [if_neg h0]
    | some b =>
      by_cases h8 : b ≥ 8
      · simp only [if_pos h8]
      · simp only [if_neg h8]
        cases hw : vl[s.index]? with
        | none => simp [hw]
        | some w =>
          simp only [hw, Option.map_some']
          have hv : w % 256 < 256 := Nat.mod_lt _ (by norm_num)
          have hiff := visMask_testBit (w % 256) hv b (by omega)
          by_cases hc : (w % 256) &&& ((2 <<< b) % 256) ≠ 0
          · simp only [if_pos hc, if_pos (hiff.mp hc)]
          · simp only [if_neg hc, if_neg (fun hx => hc (hiff.mpr hx))]

/-! ## C8: sentinel-mode visibility -/

lemma visRunWith_succ (step : VisState → VisOut) (fuel : Nat) (s : VisState) :
    visRunWith step (fuel + 1) s =
      match step s with
      | .stop => ([], .stopped)
      | .panicked => ([], .panicAbort)
      | .cont s' => visRunWith step fuel s'
      | .emit l s' =>
        let r := visRunWith step fuel s'
        (l :: r.1, r.2) := rfl

lemma visRunAll_panics (vl : List Nat) (nl : Nat) (lv : List Int) (i0 : Nat)
    (b0 : Option Nat) (fuel : Nat) :
    ∀ c, lv.length - c < fuel →
      visRunWith (visStep ⟨vl, nl, lv, true⟩) fuel ⟨i0, c, b0⟩ =
        ((List.range' c (lv.length - c)).filter
          (fun i => !isInvalidLeaf (lv.getD i 0)), .panicAbort) := by
  induction fuel with
  | zero => intro c h; omega
  | succ n ih =>
    intro c h
    rw [visRunWith_succ]
    have hall : visStep ⟨vl, nl, lv, true⟩ ⟨i0, c, b0⟩ =
        (match bspLeaf lv c with
         | none => .panicked
         | some none => .cont ⟨i0, c + 1, b0⟩
         | some (some l) => .emit l ⟨i0, c + 1, b0⟩) := rfl
    rw [hall]
    cases hc : lv[c]? with
    | none =>
      have hlen : lv.length ≤ c := by
        by_contra hlt
        push_neg at hlt
        rw [List.getElem?_eq_getElem hlt] at hc
        exact Option.noConfusion hc
      have hbl : bspLeaf lv c = none := by
        unfold bspLeaf
        rw [hc]
      rw [hbl]
      have h0 : lv.length - c = 0 := by omega
      rw [h0]
      rfl
    | some t =>
      have hlt : c < lv.length := by
        by_contra hge
        rw [List.getElem?_eq_none (by omega)] at hc
        exact Option.noConfusion hc
      have hgd : lv.getD c 0 = t := by
        rw [List.getD_eq_getElem?_getD, hc]
        rfl
      have hsplit : lv.length - c = (lv.length - (c + 1)) + 1 := by omega
      by_cases hinv : isInvalidLeaf t = true
      · have hbl : bspLeaf lv c = some none := by
          unfold bspLeaf
          simp only [hc, if_pos hinv]
        simp only [hbl]
        rw [ih (c + 1) (by omega), hsplit, List.range'_succ, List.filter_cons]
        simp [hc, hinv]
      · have hbl : bspLeaf lv c = some (some c) := by
          unfold bspLeaf
          simp only [hc, if_neg hinv]
        simp only [hbl]
        rw [ih (c + 1) (by omega), hsplit, List.range'_succ, List.filter_cons]
        simp [hc, hinv]

/-- C8 counterexample: the claim says a sentinel leaf (`vis_index < 0`)
yields every resolvable leaf index from 1 to `leaf_count` and terminates
after `leaf_count`.  On a map with 4 leaves (types `[-1, -1, -2, -1]`)
the iterator yields `[1, 3]` but then aborts: in sentinel mode there is
no stop test, so reaching index 4 = `leaf_count` indexes past the leaves
lump and panics — the run ends in a panic, never a normal stop. -/
theorem c8_sentinel_panics_at_leaf_count :
    visibleLeaves ⟨[], [], [-1, -1, -2, -1]⟩ [] (-1) 10 =
        ([1, 3], .panicAbort) ∧
      VisDone.panicAbort ≠ VisDone.stopped := by decide

/-- C8 amended: for every leaf with negative `vis_index`, given enough
iterations the decoder yields exactly the resolvable leaf indices from 1
to `leaf_count - 1` in ascending order (silently skipping every index
whose leaf is the Invalid sentinel), and then panics attempting to
resolve index `leaf_count` instead of terminating. -/
theorem c8_sentinel_amended (b : BspData) (visList : List Nat)
    (visIndex : Int) (fuel : Nat) (hneg : visIndex < 0)
    (hfuel : b.leaves.length - 1 < fuel) :
    visibleLeaves b visList visIndex fuel =
      ((List.range' 1 (b.leaves.length - 1)).filter
        (fun i => !isInvalidLeaf (b.leaves.getD i 0)), .panicAbort) := by
  unfold visibleLeaves
  have hdec : decide (visIndex < 0) = true := decide_eq_true hneg
  rw [hdec]
  exact visRunAll_panics visList b.leaves.length b.leaves _ none fuel 1 hfuel

/-- Witness for C8: the amended sentinel behavior on the 4-leaf map. -/
theorem c8_sentinel_amended_witness :
    visibleLeaves ⟨[], [], [-1, -1, -2, -1]⟩ [] (-1) 5 =
      ((List.range' 1 ((([-1, -1, -2, -1] : List Int)).length - 1)).filter
        (fun i => !isInvalidLeaf (([-1, -1, -2, -1] : List Int).getD i 0)),
        .panicAbort) :=
  c8_sentinel_amended ⟨[], [], [-1, -1, -2, -1]⟩ [] (-1) 5 (by norm_num)
    (by decide)

end GoldsRS
